import Mathlib

/-!
# URL shortener: generator, SQLite repository, service and HTTP handlers

A shallow embedding of the Go packages `internal/util`, `internal/domain`,
`internal/repository`, `internal/repository/sqlite`, `internal/service` and
`internal/handler`, followed by theorems about them.

Conventions.
* Go strings are `String`; the bytes of `charset` are ASCII, so byte indexing and
  character indexing agree on it.
* A Go panic is the `none` result of an `Option`-valued function.
* State that Go mutates in place (the random source, the database, the record a
  pointer refers to) is passed in and handed back explicitly.
* What the program reads from its surroundings at one call (the clock, a failure
  reported by the database driver) is the `Env` argument of that call.
-/

namespace UrlShortner

/-! ## internal/util/generator.go -/

/-- The set of characters to use for generating the short code. -/
def charset : String := "abcdefghijklmnopqrstuvwxyzABCDEFGHIJKLMNOPQRSTUVWXYZ0123456789"

/-- The length of the generated short code. -/
def codeLength : Nat := 8

/-- The state of `seededRand`: an unbounded stream of raw draws and the number of
draws already consumed.  Every sequence of results a `*rand.Rand` can produce is the
behaviour of some such state. -/
structure Rand where
  src : Nat → Nat
  pos : Nat

/-- Go `(*rand.Rand).Intn(n)`: panics when `n <= 0`, otherwise consumes one draw and
returns a number in the half-open interval from 0 to n. -/
def Rand.Intn (r : Rand) (n : Nat) : Option (Nat × Rand) :=
  if n = 0 then none
  else some (r.src r.pos % n, { src := r.src, pos := r.pos + 1 })

/-- The body of `for i := range b` in `GenerateShortCode`, started at index `i` with
`k` iterations left: `b[i] = charset[seededRand.Intn(len(charset))]`.  Indexing
`charset` out of range panics. -/
def GenerateShortCode.fill (i : Nat) (b : List Char) (r : Rand) :
    Nat → Option (List Char × Rand)
  | 0 => some (b, r)
  | k + 1 =>
    match r.Intn charset.length with
    | none => none
    | some (j, r1) =>
      match charset.data[j]? with
      | none => none
      | some c => GenerateShortCode.fill (i + 1) (b.set i c) r1 k

/-- GenerateShortCode creates a random string of a fixed length. -/
def GenerateShortCode (r : Rand) : Option (String × Rand) :=
  let b : List Char := List.replicate codeLength (Char.ofNat 0)
  match GenerateShortCode.fill 0 b r b.length with
  | none => none
  | some (b1, r1) => some (String.mk b1, r1)

/-! ## Go error values -/

/-- The error values that occur in the program.  `ErrURLNotFound` and `ErrNoRows` are
the sentinel values `repository.ErrURLNotFound` and `sql.ErrNoRows`; `driver` is any
other error value produced below the repository (the database driver, `database/sql`,
the request context); `wrap msg err` is `fmt.Errorf(msg + ": %w", err)`. -/
inductive Error where
  | ErrURLNotFound
  | ErrNoRows
  | driver (msg : String)
  | wrap (msg : String) (err : Error)
  deriving DecidableEq, Repr

/-- Go `errors.Unwrap`. -/
def Error.Unwrap : Error → Option Error
  | .wrap _ err => some err
  | _ => none

/-- Go `errors.Is(err, target)`: `target` is compared with every error of the chain
obtained from `err` by repeated unwrapping. -/
def errorsIs : Error → Error → Bool
  | .wrap msg err, target => (Error.wrap msg err == target) || errorsIs err target
  | err, target => err == target

deriving instance DecidableEq for Except

/-! ## internal/domain/url.go -/

/-- A `time.Time` value; `0` is the zero value. -/
abbrev Time := Nat

/-- ShortURL is the core struct of the application: the mapping between an original
URL and its shortened version.  `ID` is an `int64`. -/
structure ShortURL where
  ID : Int
  OriginalURL : String
  ShortCode : String
  CreatedAt : Time
  deriving DecidableEq, Repr

/-! ## The surroundings of one call -/

/-- What one call reads from outside the program: the clock (`time.Now()`), and the
failures the database layer may report for reasons that do not depend on the table
contents (`execErr`: `ExecContext` or `QueryRowContext`, for example a cancelled
context or an I/O error; `lastIdErr`: `res.LastInsertId()`; `scanErr`: the column
conversions of `row.Scan`). -/
structure Env where
  now : Time
  execErr : Option String
  lastIdErr : Option String
  scanErr : Option String

/-- Surroundings in which the clock reads `now` and no database failure occurs. -/
def Env.healthy (now : Time) : Env := ⟨now, none, none, none⟩

/-! ## The table `urls` (createTable in sqlite_repository.go)

    CREATE TABLE IF NOT EXISTS urls (
      id INTEGER PRIMARY KEY AUTOINCREMENT,
      original_url TEXT NOT NULL,
      short_code TEXT NOT NULL UNIQUE,
      created_at DATETIME NOT NULL);
-/

/-- A row of `urls`.  The program never supplies `id` itself, so row ids are the
automatically assigned ones, which are natural numbers. -/
structure Row where
  id : Nat
  original_url : String
  short_code : String
  created_at : Time
  deriving DecidableEq, Repr

/-- The database: the rows of `urls` in insertion order and the AUTOINCREMENT counter
kept for the table (the largest row id ever handed out). -/
structure DB where
  rows : List Row
  seq : Nat
  deriving DecidableEq, Repr

/-- The database right after `createTable` on a fresh file. -/
def DB.empty : DB := ⟨[], 0⟩

/-- The largest row id SQLite can assign, 2^63 - 1. -/
def MAX_ROWID : Nat := 2 ^ 63 - 1

/-- The largest row id present in the table (0 when it is empty). -/
def DB.maxRowid (db : DB) : Nat := db.rows.foldl (fun m r => max m r.id) 0

/-- Execution of
`INSERT INTO urls (original_url, short_code, created_at) VALUES (?, ?, ?)`.
AUTOINCREMENT picks one more than the largest row id that ever existed and fails when
that is no longer representable; the UNIQUE constraint on `short_code` rejects a
duplicate.  A rejected statement leaves the database as it was. -/
def DB.insert (db : DB) (original_url short_code : String) (created_at : Time) :
    Except Error (Nat × DB) :=
  let last := max db.maxRowid db.seq
  if MAX_ROWID ≤ last then
    .error (.driver "database or disk is full")
  else if db.rows.any (fun r => r.short_code == short_code) then
    .error (.driver "UNIQUE constraint failed: urls.short_code")
  else
    let id := last + 1
    .ok (id, { rows := db.rows ++ [⟨id, original_url, short_code, created_at⟩], seq := id })

/-- The first row returned by
`SELECT id, original_url, short_code, created_at FROM urls WHERE short_code = ?`. -/
def DB.selectByCode (db : DB) (code : String) : Option Row :=
  db.rows.find? (fun r => r.short_code == code)

/-! ## internal/repository/repository.go -/

/-- URLRepository is the contract for URL persistence, over a store state `σ`.
`Save` receives a pointer to a record which it may update: the result holds the record
the pointer refers to afterwards, the returned error (`none` is `nil`) and the new
store state.  `FindByCode` returns the found record or an error. -/
structure URLRepository (σ : Type) where
  Save : Env → σ → ShortURL → ShortURL × Option Error × σ
  FindByCode : Env → σ → String → Except Error ShortURL × σ

/-! ## internal/repository/sqlite/sqlite_repository.go -/

/-- The call `r.db.ExecContext(ctx, query, url.OriginalURL, url.ShortCode, url.CreatedAt)`
of `Save`. -/
def SQLiteRepository.exec (env : Env) (db : DB) (url : ShortURL) : Except Error (Nat × DB) :=
  match env.execErr with
  | some msg => .error (.driver msg)
  | none => db.insert url.OriginalURL url.ShortCode url.CreatedAt

/-- Save persists a new ShortURL to the database. -/
def SQLiteRepository.Save (env : Env) (db : DB) (url : ShortURL) :
    ShortURL × Option Error × DB :=
  let url1 := { url with CreatedAt := env.now }
  match SQLiteRepository.exec env db url1 with
  | .error err => (url1, some (.wrap "database error on save" err), db)
  | .ok (id, db1) =>
    match env.lastIdErr with
    | some msg => (url1, some (.wrap "failed to retrieve last insert ID" (.driver msg)), db1)
    | none => ({ url1 with ID := Int.ofNat id }, none, db1)

/-- The calls `r.db.QueryRowContext(ctx, query, code)` and
`row.Scan(&u.ID, &u.OriginalURL, &u.ShortCode, &u.CreatedAt)` of `FindByCode`. -/
def SQLiteRepository.queryRowScan (env : Env) (db : DB) (code : String) :
    Except Error ShortURL :=
  match env.execErr with
  | some msg => .error (.driver msg)
  | none =>
    match db.selectByCode code with
    | none => .error .ErrNoRows
    | some row =>
      match env.scanErr with
      | some msg => .error (.driver msg)
      | none => .ok ⟨Int.ofNat row.id, row.original_url, row.short_code, row.created_at⟩

/-- FindByCode retrieves a ShortURL from the database by its short code. -/
def SQLiteRepository.FindByCode (env : Env) (db : DB) (code : String) :
    Except Error ShortURL × DB :=
  match SQLiteRepository.queryRowScan env db code with
  | .error err =>
    if errorsIs err .ErrNoRows then (.error .ErrURLNotFound, db)
    else (.error (.wrap "database error on find" err), db)
  | .ok u => (.ok u, db)

/-- SQLiteRepository is the SQLite implementation of the URLRepository interface. -/
def SQLiteRepository : URLRepository DB :=
  ⟨SQLiteRepository.Save, SQLiteRepository.FindByCode⟩

/-! ## internal/service/url_service.go -/

/-- CreateShortURL handles the logic of creating, storing, and returning a short URL.
The result is `none` when the code generator panics; otherwise it holds the returned
pair (record or error), the store state and the state of the random source. -/
def CreateShortURL {σ : Type} (repo : URLRepository σ) (env : Env) (s : σ) (r : Rand)
    (originalURL : String) : Option (Except Error ShortURL × σ × Rand) :=
  match GenerateShortCode r with
  | none => none
  | some (shortCode, r1) =>
    let url : ShortURL :=
      { ID := 0, OriginalURL := originalURL, ShortCode := shortCode, CreatedAt := 0 }
    match repo.Save env s url with
    | (_, some err, s1) => some (.error (.wrap "could not save URL" err), s1, r1)
    | (url1, none, s1) => some (.ok url1, s1, r1)

/-- GetOriginalURL retrieves the original URL for a given short code. -/
def GetOriginalURL {σ : Type} (repo : URLRepository σ) (env : Env) (s : σ)
    (code : String) : Except Error ShortURL × σ :=
  match repo.FindByCode env s code with
  | (.error err, s1) => (.error err, s1)
  | (.ok url, s1) => (.ok url, s1)

/-! ## net/http: the `Location` header written by `http.Redirect`

`http.Redirect(w, r, url, code)` does not send `url` as it is.  It parses it; a URL
without scheme and host is made absolute against the request path and cleaned; and
every byte outside ASCII is percent-escaped.  The functions below follow the Go
standard library on the characters of the string; the separators they look for are
ASCII, so this agrees with the byte-wise originals. -/

/-- The two fields of a parsed `*url.URL` that `http.Redirect` reads. -/
structure URL where
  Scheme : String
  Host : String
  deriving DecidableEq, Repr

/-- The bytes of the UTF-8 encoding of a character. -/
def utf8Bytes (c : Char) : List Nat :=
  let n := c.toNat
  if n < 0x80 then [n]
  else if n < 0x800 then [0xC0 + n / 64, 0x80 + n % 64]
  else if n < 0x10000 then [0xE0 + n / 4096, 0x80 + n / 64 % 64, 0x80 + n % 64]
  else [0xF0 + n / 262144, 0x80 + n / 4096 % 64, 0x80 + n / 64 % 64, 0x80 + n % 64]

/-- A hexadecimal digit in lower case, as `strconv.AppendInt(b, v, 16)` writes it. -/
def hexDigit (n : Nat) : Char := ("0123456789abcdef").data.getD n '0'

/-- The part of `hexEscapeNonASCII` for one character: an ASCII character stays, every
byte of another character (each is at least 0x80, so two digits) becomes `%xx`. -/
def escapeChar (c : Char) : List Char :=
  if c.toNat < 0x80 then [c]
  else (utf8Bytes c).flatMap (fun b => ['%', hexDigit (b / 16), hexDigit (b % 16)])

/-- Go `hexEscapeNonASCII` of net/http. -/
def hexEscapeNonASCII (s : String) : String := String.mk (s.data.flatMap escapeChar)

/-- The elements of a path between its slashes. -/
def splitSlash : List Char → List (List Char)
  | [] => [[]]
  | c :: cs =>
    if c = '/' then [] :: splitSlash cs
    else
      match splitSlash cs with
      | [] => [[c]]
      | e :: es => (c :: e) :: es

/-- One element read by `path.Clean`; `out` holds the elements written so far, the last
one first.  Empty elements and `.` are dropped; `..` removes the last element written,
or is dropped at the root, or is kept in front of a path that is not rooted. -/
def cleanStep (rooted : Bool) (out : List (List Char)) (e : List Char) : List (List Char) :=
  if e = [] ∨ e = ['.'] then out
  else if e = ['.', '.'] then
    match out with
    | top :: rest => if top = ['.', '.'] then e :: out else rest
    | [] => if rooted then [] else [e]
  else e :: out

/-- Go `path.Clean`. -/
def pathClean (p : List Char) : List Char :=
  if p = [] then ['.']
  else
    let rooted : Bool := p.head? = some '/'
    let out := (splitSlash p).foldl (cleanStep rooted) []
    let body := List.intercalate ['/'] out.reverse
    if rooted then '/' :: body
    else if body = [] then ['.'] else body

/-- The directory part of Go `path.Split`: everything up to and including the last
slash. -/
def pathSplitDir (p : List Char) : List Char :=
  (p.reverse.dropWhile (fun c => c != '/')).reverse

/-- The `url` that `http.Redirect` puts together for a URL without scheme and host. -/
def absoluteAgainst (urlPath url : List Char) : List Char :=
  let oldpath := if urlPath = [] then ['/'] else urlPath
  let url1 := if url = [] ∨ url.head? ≠ some '/' then pathSplitDir oldpath ++ url else url
  let url2 := url1.takeWhile (fun c => c != '?')
  let query := url1.dropWhile (fun c => c != '?')
  let trailing : Bool := url2.getLast? = some '/'
  let url3 := pathClean url2
  let url4 := if trailing ∧ url3.getLast? ≠ some '/' then url3 ++ ['/'] else url3
  url4 ++ query

/-- The value of the `Location` header set by `http.Redirect(w, r, url, code)`, where
`urlPath` is `r.URL.Path` and `parse` is `urlpkg.Parse`, reduced to its error or the
scheme and host of its result. -/
def httpRedirect (parse : String → Except Error URL) (urlPath url : String) : String :=
  match parse url with
  | .error _ => hexEscapeNonASCII url
  | .ok u =>
    if u.Scheme = "" ∧ u.Host = "" then
      hexEscapeNonASCII (String.mk (absoluteAgainst urlPath.data url.data))
    else hexEscapeNonASCII url

/-! ## internal/handler/http_handler.go -/

/-- ShortenRequest is the request body of the POST /shorten endpoint. -/
structure ShortenRequest where
  URL : String
  deriving DecidableEq, Repr

/-- ShortenResponse is the response body of the POST /shorten endpoint. -/
structure ShortenResponse where
  ShortURL : String
  deriving DecidableEq, Repr

def StatusCreated : Nat := 201
def StatusFound : Nat := 302
def StatusBadRequest : Nat := 400
def StatusNotFound : Nat := 404
def StatusInternalServerError : Nat := 500

/-- What a handler sends through its `http.ResponseWriter`: the message and status of
`http.Error(w, msg, code)`; the status of `w.WriteHeader(code)` followed by the JSON
encoding of `resp`; or the `Location` header and status that
`http.Redirect(w, r, url, code)` sends. -/
inductive Response where
  | Error (msg : String) (code : Nat)
  | JSON (code : Nat) (resp : ShortenResponse)
  | Redirect (location : String) (code : Nat)
  deriving DecidableEq, Repr

/-- The status code of a response. -/
def Response.status : Response → Nat
  | .Error _ code => code
  | .JSON code _ => code
  | .Redirect _ code => code

/-- ShortenURL is the handler for creating a new short URL.  `decode` is
`json.NewDecoder(r.Body).Decode(&req)` as a function of the request body: the error it
reports, or the contents of `req` afterwards. -/
def ShortenURL {σ : Type} (decode : String → Except Error ShortenRequest)
    (repo : URLRepository σ) (env : Env) (s : σ) (r : Rand) (body : String) :
    Option (Response × σ × Rand) :=
  match decode body with
  | .error _ => some (.Error "Invalid request body" StatusBadRequest, s, r)
  | .ok req =>
    if req.URL = "" then some (.Error "URL cannot be empty" StatusBadRequest, s, r)
    else
      match CreateShortURL repo env s r req.URL with
      | none => none
      | some (.error _, s1, r1) =>
        some (.Error "Internal server error" StatusInternalServerError, s1, r1)
      | some (.ok shortURL, s1, r1) =>
        let baseURL := "http://localhost:8080"
        let resp : ShortenResponse := { ShortURL := baseURL ++ "/" ++ shortURL.ShortCode }
        some (.JSON StatusCreated resp, s1, r1)

/-- RedirectURL is the handler for redirecting a short code to its original URL.
`urlPath` is `r.URL.Path` and `shortCode` the path variable extracted by the router;
`parse` is `urlpkg.Parse` as used inside `http.Redirect`. -/
def RedirectURL {σ : Type} (parse : String → Except Error URL) (repo : URLRepository σ)
    (env : Env) (s : σ) (urlPath shortCode : String) : Response × σ :=
  match GetOriginalURL repo env s shortCode with
  | (.error err, s1) =>
    if errorsIs err .ErrURLNotFound then (.Error "URL not found" StatusNotFound, s1)
    else (.Error "Internal server error" StatusInternalServerError, s1)
  | (.ok url, s1) => (.Redirect (httpRedirect parse urlPath url.OriginalURL) StatusFound, s1)

/-! ## Sequences of operations on the SQLite-backed service -/

/-- The state of the running program: the database and the random source. -/
structure State where
  db : DB
  rand : Rand

/-- One operation of the service or of the store, with the surroundings it runs in. -/
inductive Op where
  | CreateShortURL (env : Env) (originalURL : String)
  | GetOriginalURL (env : Env) (code : String)
  | Save (env : Env) (url : ShortURL)
  | FindByCode (env : Env) (code : String)

/-- The state after one operation. -/
def State.step (st : State) : Op → State
  | .CreateShortURL env u =>
    match CreateShortURL SQLiteRepository env st.db st.rand u with
    | none => st
    | some (_, db1, r1) => ⟨db1, r1⟩
  | .GetOriginalURL env code => ⟨(GetOriginalURL SQLiteRepository env st.db code).2, st.rand⟩
  | .Save env url => ⟨(SQLiteRepository.Save env st.db url).2.2, st.rand⟩
  | .FindByCode env code => ⟨(SQLiteRepository.FindByCode env st.db code).2, st.rand⟩

/-- The state after a sequence of operations. -/
def State.run (st : State) (ops : List Op) : State := ops.foldl State.step st

/-! ## Recording the calls made to a repository -/

/-- A call of a method of the repository interface. -/
inductive Call where
  | Save (url : ShortURL)
  | FindByCode (code : String)
  deriving DecidableEq, Repr

/-- The repository `repo` with a record of the calls made to it: every call appends
one entry to the list kept beside the store state and is then passed on. -/
def recording {σ : Type} (repo : URLRepository σ) : URLRepository (σ × List Call) where
  Save env s url :=
    match repo.Save env s.1 url with
    | (url1, err, s1) => (url1, err, (s1, s.2 ++ [Call.Save url]))
  FindByCode env s code :=
    match repo.FindByCode env s.1 code with
    | (res, s1) => (res, (s1, s.2 ++ [Call.FindByCode code]))

/-! ## Small facts used as test inputs -/

/-- A random source whose every draw is 0: it generates the code `aaaaaaaa`. -/
def zeroRand : Rand := ⟨fun _ => 0, 0⟩

/-- A random source whose draws count up from 0. -/
def countRand : Rand := ⟨fun i => i, 0⟩

/-- A database holding one row, stored under the code `aaaaaaaa`. -/
def oneRowDB : DB := ⟨[⟨1, "https://go.dev", "aaaaaaaa", 5⟩], 1⟩

/-- The lower-case letters, the upper-case letters and the digits, in this order. -/
def alphanumerics : List Char :=
  (List.range 26).map (fun i => Char.ofNat (('a').toNat + i)) ++
  (List.range 26).map (fun i => Char.ofNat (('A').toNat + i)) ++
  (List.range 10).map (fun i => Char.ofNat (('0').toNat + i))

/-! ## Auxiliary definitions for the statements -/

/-- The largest row id that ever existed, as AUTOINCREMENT sees it. -/
def DB.last (db : DB) : Nat := max db.maxRowid db.seq

/-- The short codes of the stored rows, in insertion order. -/
def DB.codes (db : DB) : List String := db.rows.map Row.short_code

/-- The record a successful `Save` of `url` leaves behind the pointer. -/
def savedRecord (db : DB) (env : Env) (url : ShortURL) : ShortURL :=
  ⟨Int.ofNat (db.last + 1), url.OriginalURL, url.ShortCode, env.now⟩

/-- The database after a successful insert for `url`. -/
def DB.withRow (db : DB) (env : Env) (url : ShortURL) : DB :=
  ⟨db.rows ++ [⟨db.last + 1, url.OriginalURL, url.ShortCode, env.now⟩], db.last + 1⟩

/-- One operation leaves the database as it was, or appends one row whose code no
stored row has and whose id is one more than the largest id that ever existed. -/
def DB.Grows (db db1 : DB) : Prop :=
  db1 = db ∨ ∃ u c t, db.last < MAX_ROWID ∧ (∀ row ∈ db.rows, row.short_code ≠ c) ∧
    db1 = ⟨db.rows ++ [⟨db.last + 1, u, c, t⟩], db.last + 1⟩

/-- The record returned by the first CreateShortURL of `https://example.com` on the
empty store at time 7 with the random source `zeroRand`. -/
def sampleRecord : ShortURL := ⟨1, "https://example.com", "aaaaaaaa", 7⟩

/-- The database after that call. -/
def sampleDB : DB := ⟨[⟨1, "https://example.com", "aaaaaaaa", 7⟩], 1⟩

/-- The random source `zeroRand` after one generated code. -/
def zeroRand8 : Rand := ⟨fun _ => 0, 8⟩

/-- Surroundings in which the database query fails because the context is cancelled. -/
def cancelledEnv : Env := ⟨8, some "context canceled", none, none⟩

/-- A stand-in for the JSON decoder on test bodies: the empty object, an object with
the url `https://example.com`, and anything else, which it rejects. -/
def sampleDecode (body : String) : Except Error ShortenRequest :=
  if body = "\x7b\x7d" then .ok ⟨""⟩
  else if body = "\x7b\x22url\x22:\x22https://example.com\x22\x7d" then
    .ok ⟨"https://example.com"⟩
  else .error (.driver "invalid character")

/-- A stand-in for `urlpkg.Parse` on test URLs: `example.com` has neither scheme nor
host, `https://go.dev` has both, anything else is rejected. -/
def sampleParse (url : String) : Except Error URL :=
  if url = "example.com" then .ok ⟨"", ""⟩
  else if url = "https://go.dev" then .ok ⟨"https", "go.dev"⟩
  else .error (.driver "parse error")

/-- A database holding one row whose original URL has neither scheme nor host. -/
def relativeDB : DB := ⟨[⟨1, "example.com", "aaaaaaaa", 7⟩], 1⟩

/-- A database holding one row whose original URL has a character outside ASCII. -/
def accentDB : DB := ⟨[⟨1, "https://example.com/café", "aaaaaaaa", 7⟩], 1⟩

/-- The record returned by the first CreateShortURL of `https://example.com` on the
empty store at time 7 with the random source `countRand`. -/
def firstRecord : ShortURL := ⟨1, "https://example.com", "abcdefgh", 7⟩

/-- The record returned by a second such call at time 9. -/
def secondRecord : ShortURL := ⟨2, "https://example.com", "ijklmnop", 9⟩

/-- The database after the first of the two calls. -/
def firstDB : DB := ⟨[⟨1, "https://example.com", "abcdefgh", 7⟩], 1⟩

/-- The database after both calls. -/
def secondDB : DB :=
  ⟨[⟨1, "https://example.com", "abcdefgh", 7⟩, ⟨2, "https://example.com", "ijklmnop", 9⟩], 2⟩

/-- A sequence of further operations: a create that collides, a lookup of an unknown
code, a direct save and a lookup whose query fails. -/
def sampleOps : List Op :=
  [Op.CreateShortURL (Env.healthy 9) "https://go.dev",
   Op.GetOriginalURL (Env.healthy 10) "zzzzzzzz",
   Op.Save (Env.healthy 11) ⟨0, "https://go.dev", "Go123456", 0⟩,
   Op.FindByCode cancelledEnv "aaaaaaaa"]

/-! ## Lemmas on the generator -/

theorem charset_length : charset.length = 62 := by decide

theorem charset_data_length : charset.data.length = 62 := by decide

theorem charset_alphanum : ∀ c ∈ charset.data, c.isAlphanum = true := by decide

theorem Intn_charset (r : Rand) :
    r.Intn charset.length = some (r.src r.pos % 62, ⟨r.src, r.pos + 1⟩) := by
  simp [Rand.Intn, charset_length]

theorem charset_index (j : Nat) (h : j < 62) :
    ∃ c, charset.data[j]? = some c ∧ c ∈ charset.data := by
  have hj : j < charset.data.length := by rw [charset_data_length]; exact h
  exact ⟨charset.data[j], List.getElem?_eq_getElem hj, List.getElem_mem hj⟩

theorem fill_spec (k : Nat) : ∀ (i : Nat) (b : List Char) (r : Rand),
    i + k = b.length →
    (∀ j c, j < i → b[j]? = some c → c ∈ charset.data) →
    ∃ b1 r1, GenerateShortCode.fill i b r k = some (b1, r1) ∧ b1.length = b.length ∧
      (∀ c ∈ b1, c ∈ charset.data) ∧ r1.src = r.src ∧ r1.pos = r.pos + k := by
  induction k with
  | zero =>
    intro i b r hlen hinv
    refine ⟨b, r, rfl, rfl, ?_, rfl, rfl⟩
    intro c hc
    obtain ⟨j, hj, hjc⟩ := List.getElem_of_mem hc
    exact hinv j c (by omega) (by rw [List.getElem?_eq_getElem hj, hjc])
  | succ k ih =>
    intro i b r hlen hinv
    obtain ⟨c, hc, hmem⟩ := charset_index (r.src r.pos % 62) (Nat.mod_lt _ (by decide))
    have hstep : GenerateShortCode.fill i b r (k + 1)
        = GenerateShortCode.fill (i + 1) (b.set i c) ⟨r.src, r.pos + 1⟩ k := by
      simp only [GenerateShortCode.fill, Intn_charset, hc]
    obtain ⟨b1, r1, h1, h2, h3, h4, h5⟩ := ih (i + 1) (b.set i c) ⟨r.src, r.pos + 1⟩
      (by simp; omega)
      (by
        intro j d hj hd
        by_cases hji : j = i
        · subst hji
          rw [List.getElem?_set_self (by omega)] at hd
          cases hd
          exact hmem
        · rw [List.getElem?_set_ne (fun h => hji h.symm)] at hd
          exact hinv j d (by omega) hd)
    refine ⟨b1, r1, by rw [hstep]; exact h1, by simpa using h2, h3, h4, ?_⟩
    rw [h5]; simp; omega

/-- GenerateShortCode returns for every state of the random source: the code has
`codeLength` characters of `charset`, and `codeLength` draws are consumed. -/
theorem GenerateShortCode_total (r : Rand) :
    ∃ code r1, GenerateShortCode r = some (code, r1) ∧ code.length = codeLength ∧
      (∀ c ∈ code.data, c ∈ charset.data) ∧ r1.src = r.src ∧ r1.pos = r.pos + codeLength := by
  obtain ⟨b1, r1, h1, h2, h3, h4, h5⟩ :=
    fill_spec codeLength 0 (List.replicate codeLength (Char.ofNat 0)) r (by simp)
      (by intro j c hj; omega)
  refine ⟨String.mk b1, r1, ?_, ?_, h3, h4, ?_⟩
  · simp only [GenerateShortCode, List.length_replicate, h1]
  · simpa [String.length] using h2
  · simpa using h5

/-! ## Lemmas on the table -/

theorem foldl_max_le (rows : List Row) : ∀ m : Nat,
    m ≤ rows.foldl (fun m r => max m r.id) m ∧
    ∀ row ∈ rows, row.id ≤ rows.foldl (fun m r => max m r.id) m := by
  induction rows with
  | nil => intro m; simp
  | cons a t ih =>
    intro m
    obtain ⟨h1, h2⟩ := ih (max m a.id)
    refine ⟨le_trans (le_max_left _ _) h1, ?_⟩
    intro row hrow
    rcases List.mem_cons.1 hrow with h | h
    · subst h; exact le_trans (le_max_right _ _) h1
    · exact h2 row h

theorem id_le_maxRowid (db : DB) (row : Row) (h : row ∈ db.rows) : row.id ≤ db.maxRowid :=
  (foldl_max_le db.rows 0).2 row h

theorem insert_ok {db : DB} {u c : String} {t : Time} {id : Nat} {db1 : DB}
    (h : db.insert u c t = .ok (id, db1)) :
    db.last < MAX_ROWID ∧ (∀ row ∈ db.rows, row.short_code ≠ c) ∧ id = db.last + 1 ∧
      db1 = ⟨db.rows ++ [⟨id, u, c, t⟩], id⟩ := by
  unfold DB.insert at h
  simp only [] at h
  split at h
  · cases h
  · split at h
    · cases h
    · rename_i h1 h2
      simp only [Except.ok.injEq, Prod.mk.injEq] at h
      obtain ⟨hid, hdb⟩ := h
      refine ⟨by simpa [DB.last] using h1, ?_, by simpa [DB.last] using hid.symm, ?_⟩
      · intro row hrow hc
        apply h2
        rw [List.any_eq_true]
        exact ⟨row, hrow, by simpa using hc⟩
      · rw [← hdb, ← hid]

theorem insert_duplicate {db : DB} {u c : String} {t : Time}
    (h : ∃ row ∈ db.rows, row.short_code = c) : ∃ e, db.insert u c t = .error e := by
  obtain ⟨row, hrow, hc⟩ := h
  have hany : (db.rows.any fun r => r.short_code == c) = true := by
    rw [List.any_eq_true]; exact ⟨row, hrow, by simpa using hc⟩
  unfold DB.insert
  simp only [hany]
  split
  · exact ⟨_, rfl⟩
  · exact ⟨_, rfl⟩

theorem insert_fresh {db : DB} {u c : String} {t : Time}
    (h1 : db.last < MAX_ROWID) (h2 : ∀ row ∈ db.rows, row.short_code ≠ c) :
    db.insert u c t = .ok (db.last + 1, ⟨db.rows ++ [⟨db.last + 1, u, c, t⟩], db.last + 1⟩) := by
  have hany : (db.rows.any fun r => r.short_code == c) = false := by
    rw [List.any_eq_false]
    intro row hrow
    simpa using h2 row hrow
  have hlt : ¬ MAX_ROWID ≤ max db.maxRowid db.seq := by
    simpa [DB.last] using h1
  unfold DB.insert
  simp [hany, hlt, DB.last]

theorem last_after_insert (db : DB) (u c : String) (t : Time) :
    (DB.mk (db.rows ++ [⟨db.last + 1, u, c, t⟩]) (db.last + 1)).last = db.last + 1 := by
  simp only [DB.last, DB.maxRowid, List.foldl_append, List.foldl_cons, List.foldl_nil]
  omega

theorem selectByCode_none {db : DB} {c : String} :
    db.selectByCode c = none ↔ ∀ row ∈ db.rows, row.short_code ≠ c := by
  simp [DB.selectByCode, List.find?_eq_none]

theorem selectByCode_append (rows t : List Row) (seq seq1 : Nat) {c : String} {row : Row}
    (h : (DB.mk rows seq).selectByCode c = some row) :
    (DB.mk (rows ++ t) seq1).selectByCode c = some row := by
  simp only [DB.selectByCode] at h ⊢
  rw [List.find?_append, h]
  rfl

theorem selectByCode_after_insert (db : DB) (row : Row) (seq1 : Nat)
    (h : ∀ r ∈ db.rows, r.short_code ≠ row.short_code) :
    (DB.mk (db.rows ++ [row]) seq1).selectByCode row.short_code = some row := by
  have hnone : db.rows.find? (fun r => r.short_code == row.short_code) = none := by
    rw [List.find?_eq_none]
    intro r hr
    simpa using h r hr
  simp [DB.selectByCode, List.find?_append, hnone]

/-! ## Lemmas on the repository and the service -/

/-- The three outcomes of `Save`: an error and an unchanged database; a stored row and
the record with its id; a stored row and an error from `LastInsertId`. -/
theorem Save_spec (env : Env) (db : DB) (url : ShortURL) :
    ((SQLiteRepository.Save env db url).2.1 ≠ none ∧
      (SQLiteRepository.Save env db url).2.2 = db ∧
      (env.execErr ≠ none ∨ MAX_ROWID ≤ db.last ∨ ∃ row ∈ db.rows, row.short_code = url.ShortCode)) ∨
    (env.execErr = none ∧ db.last < MAX_ROWID ∧
      (∀ row ∈ db.rows, row.short_code ≠ url.ShortCode) ∧
      (SQLiteRepository.Save env db url).2.2 = db.withRow env url ∧
      ((env.lastIdErr = none ∧ (SQLiteRepository.Save env db url).2.1 = none ∧
          (SQLiteRepository.Save env db url).1 = savedRecord db env url) ∨
       (env.lastIdErr ≠ none ∧ (SQLiteRepository.Save env db url).2.1 ≠ none))) := by
  by_cases hex : env.execErr = none
  · by_cases hfull : MAX_ROWID ≤ db.last
    · left
      have hins : db.insert url.OriginalURL url.ShortCode env.now
          = .error (.driver "database or disk is full") := by
        unfold DB.insert
        simp only [DB.last] at hfull
        simp [hfull]
      simp [SQLiteRepository.Save, SQLiteRepository.exec, hex, hins, hfull]
    · by_cases hdup : ∃ row ∈ db.rows, row.short_code = url.ShortCode
      · left
        obtain ⟨e, he⟩ := insert_duplicate (u := url.OriginalURL) (t := env.now) hdup
        simp only [SQLiteRepository.Save, SQLiteRepository.exec, hex, he]
        exact ⟨by simp, trivial, Or.inr (Or.inr hdup)⟩
      · right
        have hfresh : ∀ row ∈ db.rows, row.short_code ≠ url.ShortCode := by
          intro row hrow hc; exact hdup ⟨row, hrow, hc⟩
        have hins := insert_fresh (u := url.OriginalURL) (t := env.now)
          (Nat.lt_of_not_le hfull) hfresh
        refine ⟨hex, Nat.lt_of_not_le hfull, hfresh, ?_, ?_⟩
        · simp only [SQLiteRepository.Save, SQLiteRepository.exec, hex, hins]
          cases env.lastIdErr <;> rfl
        · cases hl : env.lastIdErr with
          | none =>
            left
            simp [SQLiteRepository.Save, SQLiteRepository.exec, hex, hins, hl, savedRecord]
          | some msg =>
            right
            simp [SQLiteRepository.Save, SQLiteRepository.exec, hex, hins, hl]
  · left
    obtain ⟨msg, hmsg⟩ := Option.ne_none_iff_exists'.1 hex
    simp [SQLiteRepository.Save, SQLiteRepository.exec, hmsg]

theorem FindByCode_db (env : Env) (db : DB) (code : String) :
    (SQLiteRepository.FindByCode env db code).2 = db := by
  unfold SQLiteRepository.FindByCode
  split
  · split <;> rfl
  · rfl

theorem GetOriginalURL_eq {σ : Type} (repo : URLRepository σ) (env : Env) (s : σ)
    (code : String) : GetOriginalURL repo env s code = repo.FindByCode env s code := by
  unfold GetOriginalURL
  split <;> (rename_i h; rw [h])

/-- FindByCode in surroundings without a database failure, in terms of the table. -/
theorem FindByCode_healthy (env : Env) (db : DB) (code : String)
    (h1 : env.execErr = none) (h2 : env.scanErr = none) :
    SQLiteRepository.FindByCode env db code =
      (match db.selectByCode code with
        | none => .error .ErrURLNotFound
        | some row => .ok ⟨Int.ofNat row.id, row.original_url, row.short_code, row.created_at⟩,
       db) := by
  unfold SQLiteRepository.FindByCode SQLiteRepository.queryRowScan
  rw [h1, h2]
  cases db.selectByCode code <;> simp [errorsIs]

/-- CreateShortURL in terms of one generated code and one call of `Save`. -/
theorem CreateShortURL_eq {σ : Type} (repo : URLRepository σ) (env : Env) (s : σ) (r : Rand)
    (u : String) :
    ∃ code r1, GenerateShortCode r = some (code, r1) ∧ code.length = codeLength ∧
      (∀ c ∈ code.data, c ∈ charset.data) ∧ r1.src = r.src ∧ r1.pos = r.pos + codeLength ∧
      CreateShortURL repo env s r u = some
        (match (repo.Save env s ⟨0, u, code, 0⟩).2.1 with
          | some err => .error (.wrap "could not save URL" err)
          | none => .ok (repo.Save env s ⟨0, u, code, 0⟩).1,
         (repo.Save env s ⟨0, u, code, 0⟩).2.2, r1) := by
  obtain ⟨code, r1, h1, h2, h3, h4, h5⟩ := GenerateShortCode_total r
  refine ⟨code, r1, h1, h2, h3, h4, h5, ?_⟩
  simp only [CreateShortURL, h1]
  rcases repo.Save env s ⟨0, u, code, 0⟩ with ⟨url1, err, s1⟩
  cases err <;> rfl

/-- A successful CreateShortURL on the SQLite repository: the code is the generated
one, no row had it, and the database gained exactly the row of the returned record. -/
theorem CreateShortURL_ok {env : Env} {db : DB} {r : Rand} {u : String} {rec : ShortURL}
    {db1 : DB} {r1 : Rand}
    (h : CreateShortURL SQLiteRepository env db r u = some (.ok rec, db1, r1)) :
    GenerateShortCode r = some (rec.ShortCode, r1) ∧
    rec = ⟨Int.ofNat (db.last + 1), u, rec.ShortCode, env.now⟩ ∧
    db.last < MAX_ROWID ∧ (∀ row ∈ db.rows, row.short_code ≠ rec.ShortCode) ∧
    db1 = ⟨db.rows ++ [⟨db.last + 1, u, rec.ShortCode, env.now⟩], db.last + 1⟩ ∧
    env.execErr = none ∧ env.lastIdErr = none := by
  obtain ⟨code, r2, h1, _, _, _, _, h6⟩ := CreateShortURL_eq SQLiteRepository env db r u
  rw [h6] at h
  have hsave := Save_spec env db ⟨0, u, code, 0⟩
  change (SQLiteRepository.Save env db ⟨0, u, code, 0⟩).2.1 ≠ none ∧ _ ∨ _ at hsave
  simp only [Option.some.injEq, Prod.mk.injEq] at h
  obtain ⟨hres, hdb, hr⟩ := h
  have hSave : SQLiteRepository.Save = (SQLiteRepository : URLRepository DB).Save := rfl
  rw [← hSave] at hres hdb
  rcases hsave with ⟨hne, _, _⟩ | ⟨hex, hlt, hfresh, hdb1, hcase⟩
  · cases herr : (SQLiteRepository.Save env db ⟨0, u, code, 0⟩).2.1 with
    | none => exact absurd herr hne
    | some e => rw [herr] at hres; cases hres
  · rcases hcase with ⟨hl, herr, hrec⟩ | ⟨_, hne⟩
    · rw [herr] at hres
      simp only [Except.ok.injEq] at hres
      rw [hrec] at hres
      subst hres
      subst hr
      simp only [savedRecord] at *
      refine ⟨h1, trivial, hlt, hfresh, ?_, hex, hl⟩
      rw [← hdb, hdb1]; rfl
    · cases herr : (SQLiteRepository.Save env db ⟨0, u, code, 0⟩).2.1 with
      | none => exact absurd herr hne
      | some e => rw [herr] at hres; cases hres

/-! ## Lemmas on sequences of operations -/

theorem Grows_last_le {db db1 : DB} (h : db.Grows db1) : db.last ≤ db1.last := by
  rcases h with h | ⟨u, c, t, _, _, h⟩
  · rw [h]
  · rw [h, last_after_insert]; omega

theorem Grows_rows {db db1 : DB} (h : db.Grows db1) : ∃ t, db1.rows = db.rows ++ t := by
  rcases h with h | ⟨u, c, t, _, _, h⟩
  · exact ⟨[], by rw [h]; simp⟩
  · exact ⟨_, by rw [h]⟩

theorem Grows_nodup {db db1 : DB} (h : db.Grows db1) (hn : db.codes.Nodup) :
    db1.codes.Nodup := by
  rcases h with h | ⟨u, c, t, _, hfresh, h⟩
  · rw [h]; exact hn
  · rw [h]
    simp only [DB.codes, List.map_append, List.map_cons, List.map_nil]
    rw [List.nodup_append]
    refine ⟨hn, List.nodup_singleton _, ?_⟩
    intro a ha hb
    rw [List.mem_singleton] at hb
    subst hb
    obtain ⟨row, hrow, hc⟩ := List.mem_map.1 ha
    exact hfresh row hrow hc

theorem Save_grows (env : Env) (db : DB) (url : ShortURL) :
    db.Grows (SQLiteRepository.Save env db url).2.2 := by
  rcases Save_spec env db url with ⟨_, h, _⟩ | ⟨_, hlt, hfresh, h, _⟩
  · exact Or.inl h
  · exact Or.inr ⟨url.OriginalURL, url.ShortCode, env.now, hlt, hfresh, h⟩

theorem step_grows (st : State) (op : Op) : st.db.Grows (st.step op).db := by
  cases op with
  | CreateShortURL env u =>
    obtain ⟨code, r1, _, _, _, _, _, h⟩ := CreateShortURL_eq SQLiteRepository env st.db st.rand u
    simp only [State.step, h]
    exact Save_grows env st.db ⟨0, u, code, 0⟩
  | GetOriginalURL env code =>
    simp only [State.step, GetOriginalURL_eq]
    exact Or.inl (FindByCode_db env st.db code)
  | Save env url => exact Save_grows env st.db url
  | FindByCode env code => exact Or.inl (FindByCode_db env st.db code)

theorem run_last_le (ops : List Op) : ∀ st : State, st.db.last ≤ (st.run ops).db.last := by
  induction ops with
  | nil => intro st; exact le_refl _
  | cons op ops ih =>
    intro st
    exact le_trans (Grows_last_le (step_grows st op)) (ih (st.step op))

theorem run_rows (ops : List Op) : ∀ st : State, ∃ t, (st.run ops).db.rows = st.db.rows ++ t := by
  induction ops with
  | nil => intro st; exact ⟨[], by simp [State.run]⟩
  | cons op ops ih =>
    intro st
    obtain ⟨t1, h1⟩ := Grows_rows (step_grows st op)
    obtain ⟨t2, h2⟩ := ih (st.step op)
    exact ⟨t1 ++ t2, by simp only [State.run, List.foldl_cons] at h2 ⊢; rw [h2, h1, List.append_assoc]⟩

theorem run_nodup (ops : List Op) : ∀ st : State, st.db.codes.Nodup →
    (st.run ops).db.codes.Nodup := by
  induction ops with
  | nil => intro st h; exact h
  | cons op ops ih =>
    intro st h
    exact ih (st.step op) (Grows_nodup (step_grows st op) h)

theorem run_selectByCode (ops : List Op) (st : State) (c : String) (row : Row)
    (h : st.db.selectByCode c = some row) : (st.run ops).db.selectByCode c = some row := by
  obtain ⟨t, ht⟩ := run_rows ops st
  have := selectByCode_append st.db.rows t st.db.seq (st.run ops).db.seq h
  rw [← ht] at this
  exact this

theorem run_rows_fresh (ops : List Op) : ∀ st : State,
    ∃ t, (st.run ops).db.rows = st.db.rows ++ t ∧ ∀ row ∈ t, st.db.last < row.id := by
  induction ops with
  | nil => intro st; exact ⟨[], by simp [State.run], by simp⟩
  | cons op ops ih =>
    intro st
    obtain ⟨t2, h2, hf2⟩ := ih (st.step op)
    have hle := Grows_last_le (step_grows st op)
    rcases step_grows st op with h | ⟨u, c, t, _, _, h⟩
    · refine ⟨t2, ?_, ?_⟩
      · simp only [State.run, List.foldl_cons] at h2 ⊢
        rw [h2, h]
      · intro row hrow
        exact lt_of_le_of_lt hle (hf2 row hrow)
    · refine ⟨⟨st.db.last + 1, u, c, t⟩ :: t2, ?_, ?_⟩
      · simp only [State.run, List.foldl_cons] at h2 ⊢
        rw [h2, h]
        simp
      · intro row hrow
        rcases List.mem_cons.1 hrow with hr | hr
        · rw [hr]; exact Nat.lt_succ_self _
        · exact lt_of_le_of_lt hle (hf2 row hr)

theorem errorsIs_wrap_sentinel (msg : String) (e : Error) :
    errorsIs (.wrap msg e) .ErrURLNotFound = errorsIs e .ErrURLNotFound := by
  cases e <;> simp [errorsIs]

/-! ## Lemmas on the Location header -/

theorem hexDigit_ascii (n : Nat) : (hexDigit n).toNat < 0x80 := by
  rcases Nat.lt_or_ge n 16 with h | h
  · interval_cases n <;> decide
  · have hd : hexDigit n = '0' := by
      unfold hexDigit
      exact List.getD_eq_default _ _ (by simpa using h)
    rw [hd]; decide

theorem escapeChar_ascii (c d : Char) (h : d ∈ escapeChar c) : d.toNat < 0x80 := by
  unfold escapeChar at h
  split at h
  · rename_i hc
    rw [List.mem_singleton] at h
    rw [h]; exact hc
  · obtain ⟨b, _, hb⟩ := List.mem_flatMap.1 h
    simp only [List.mem_cons, List.mem_singleton, List.not_mem_nil, or_false] at hb
    rcases hb with hb | hb | hb
    · rw [hb]; decide
    · rw [hb]; exact hexDigit_ascii _
    · rw [hb]; exact hexDigit_ascii _

theorem hexEscapeNonASCII_ascii (s : String) :
    ∀ c ∈ (hexEscapeNonASCII s).data, c.toNat < 0x80 := by
  intro c hc
  simp only [hexEscapeNonASCII] at hc
  obtain ⟨d, _, hd⟩ := List.mem_flatMap.1 hc
  exact escapeChar_ascii d c hd

theorem flatMap_escapeChar_of_ascii (l : List Char) (h : ∀ c ∈ l, c.toNat < 0x80) :
    l.flatMap escapeChar = l := by
  induction l with
  | nil => rfl
  | cons a t ih =>
    have ha : escapeChar a = [a] := by
      unfold escapeChar
      rw [if_pos (h a (List.mem_cons_self _ _))]
    rw [List.flatMap_cons, ha, ih (fun c hc => h c (List.mem_cons_of_mem _ hc))]
    rfl

theorem hexEscapeNonASCII_of_ascii (s : String) (h : ∀ c ∈ s.data, c.toNat < 0x80) :
    hexEscapeNonASCII s = s := by
  unfold hexEscapeNonASCII
  rw [flatMap_escapeChar_of_ascii s.data h]

theorem httpRedirect_ascii (parse : String → Except Error URL) (urlPath url : String) :
    ∀ c ∈ (httpRedirect parse urlPath url).data, c.toNat < 0x80 := by
  unfold httpRedirect
  split
  · exact hexEscapeNonASCII_ascii _
  · split
    · exact hexEscapeNonASCII_ascii _
    · exact hexEscapeNonASCII_ascii _

theorem httpRedirect_of_absolute (parse : String → Except Error URL) (urlPath url : String)
    (hascii : ∀ c ∈ url.data, c.toNat < 0x80)
    (habs : ∀ u, parse url = .ok u → u.Scheme ≠ "" ∨ u.Host ≠ "") :
    httpRedirect parse urlPath url = url := by
  unfold httpRedirect
  split
  · exact hexEscapeNonASCII_of_ascii url hascii
  · rename_i u hu
    have hnot : ¬ (u.Scheme = "" ∧ u.Host = "") := by
      intro h
      rcases habs u hu with h1 | h1
      · exact h1 h.1
      · exact h1 h.2
    rw [if_neg hnot]
    exact hexEscapeNonASCII_of_ascii url hascii

/-! ## Theorems on the generator -/

/-- C6: for every state of the random source GenerateShortCode returns (it does not
panic) a string of exactly 8 characters, each a member of charset; charset has exactly
62 pairwise distinct symbols, namely the 26 lower-case letters, the 26 upper-case
letters and the 10 digits; and the index Intn(len(charset)) is always defined and
within the bounds of charset. -/
theorem GenerateShortCode_eight_of_charset :
    (∀ r : Rand, ∃ code r1, GenerateShortCode r = some (code, r1) ∧ code.length = 8 ∧
      code.data.all (fun c => charset.data.contains c) = true) ∧
    charset.length = 62 ∧ charset.data.Nodup ∧ charset.data = alphanumerics ∧
    (∀ r : Rand, ∃ j r1, r.Intn charset.length = some (j, r1) ∧ j < charset.length ∧
      (charset.data[j]?).isSome = true) := by
  refine ⟨?_, by decide, by decide, by decide, ?_⟩
  · intro r
    obtain ⟨code, r1, h1, h2, h3, _, _⟩ := GenerateShortCode_total r
    refine ⟨code, r1, h1, h2, ?_⟩
    rw [List.all_eq_true]
    intro c hc
    simpa using h3 c hc
  · intro r
    refine ⟨r.src r.pos % 62, ⟨r.src, r.pos + 1⟩, Intn_charset r, ?_, ?_⟩
    · rw [charset_length]; exact Nat.mod_lt _ (by decide)
    · obtain ⟨c, hc, _⟩ := charset_index (r.src r.pos % 62) (Nat.mod_lt _ (by decide))
      simp [hc]

theorem CreateShortURL_returns_record_aux {env : Env} {db : DB} {r : Rand} {u : String}
    {rec : ShortURL} {db1 : DB} {r1 : Rand}
    (h : CreateShortURL SQLiteRepository env db r u = some (.ok rec, db1, r1)) :
    rec.OriginalURL = u ∧ rec.ShortCode.length = 8 ∧
    (∀ c ∈ rec.ShortCode.data, c.isAlphanum = true) ∧
    0 < rec.ID ∧ rec.ID = Int.ofNat (db.last + 1) ∧ rec.ID ≤ 2 ^ 63 - 1 ∧
    (∃ row ∈ db1.rows, Int.ofNat row.id = rec.ID ∧ row.original_url = u ∧
      row.short_code = rec.ShortCode) := by
  obtain ⟨hgen, hrec, hlt, _, hdb, _, _⟩ := CreateShortURL_ok h
  obtain ⟨code, r2, hg, hlen, hch, _, _⟩ := GenerateShortCode_total r
  rw [hgen] at hg
  simp only [Option.some.injEq, Prod.mk.injEq] at hg
  obtain ⟨hcode, _⟩ := hg
  have hid : rec.ID = Int.ofNat (db.last + 1) := by rw [hrec]
  refine ⟨by rw [hrec], by rw [hcode]; exact hlen, ?_, ?_, hid, ?_, ?_⟩
  · intro c hc
    rw [hcode] at hc
    exact charset_alphanum c (hch c hc)
  · rw [hid]; exact Int.ofNat_pos.2 (Nat.succ_pos _)
  · rw [hid]
    have : db.last + 1 ≤ 2 ^ 63 - 1 := by
      simp only [MAX_ROWID] at hlt; omega
    simp only [Int.ofNat_eq_coe]
    omega
  · refine ⟨⟨db.last + 1, u, rec.ShortCode, env.now⟩, ?_, hid.symm, rfl, rfl⟩
    rw [hdb]; simp

/-! ## Theorems on the service and the store -/

/-- C2: whenever CreateShortURL(u) succeeds on the SQLite store (for every URL string
u, non-empty or not, and every store state) the returned record has OriginalURL equal
to u, a ShortCode of length 8 made of characters a-z, A-Z, 0-9 only, and a positive ID
assigned by the store: one more than the largest row id that ever existed, at most
2^63 - 1, and the id of the row the store now holds for this code and URL. -/
theorem CreateShortURL_returns_record (env : Env) (db : DB) (r : Rand) (u : String)
    (rec : ShortURL) (db1 : DB) (r1 : Rand)
    (h : CreateShortURL SQLiteRepository env db r u = some (.ok rec, db1, r1)) :
    rec.OriginalURL = u ∧ rec.ShortCode.length = 8 ∧
    (∀ c ∈ rec.ShortCode.data, c.isAlphanum = true) ∧
    0 < rec.ID ∧ rec.ID = Int.ofNat (db.last + 1) ∧ rec.ID ≤ 2 ^ 63 - 1 ∧
    (∃ row ∈ db1.rows, Int.ofNat row.id = rec.ID ∧ row.original_url = u ∧
      row.short_code = rec.ShortCode) := by
  exact CreateShortURL_returns_record_aux h

/-- C1, as amended: if CreateShortURL(u) succeeds on the SQLite store and returns a
record with short code c, then after any number of further CreateShortURL,
GetOriginalURL, Save and FindByCode operations every GetOriginalURL(c) whose database
query and scan report no failure succeeds and returns that same record: its
OriginalURL is u and its ShortCode is c. -/
theorem GetOriginalURL_after_create (env : Env) (db : DB) (r : Rand) (u : String)
    (rec : ShortURL) (db1 : DB) (r1 : Rand) (ops : List Op) (env2 : Env)
    (h : CreateShortURL SQLiteRepository env db r u = some (.ok rec, db1, r1))
    (hq : env2.execErr = none) (hs : env2.scanErr = none) :
    (GetOriginalURL SQLiteRepository env2 ((State.mk db1 r1).run ops).db rec.ShortCode).1
      = .ok rec ∧ rec.OriginalURL = u := by
  obtain ⟨_, hrec, _, hfresh, hdb, _, _⟩ := CreateShortURL_ok h
  have hsel : (State.mk db1 r1).db.selectByCode rec.ShortCode
      = some ⟨db.last + 1, u, rec.ShortCode, env.now⟩ := by
    simp only [hdb]
    exact selectByCode_after_insert db ⟨db.last + 1, u, rec.ShortCode, env.now⟩ _ hfresh
  have hrun := run_selectByCode ops _ _ _ hsel
  have hfind : SQLiteRepository.FindByCode env2 ((State.mk db1 r1).run ops).db rec.ShortCode
      = (.ok ⟨Int.ofNat (db.last + 1), u, rec.ShortCode, env.now⟩,
          ((State.mk db1 r1).run ops).db) := by
    rw [FindByCode_healthy env2 _ _ hq hs, hrun]
  refine ⟨?_, by rw [hrec]⟩
  rw [GetOriginalURL_eq]
  change (SQLiteRepository.FindByCode env2 _ rec.ShortCode).1 = _
  rw [hfind, ← hrec]

/-- C1, counterexample: CreateShortURL succeeds on the empty store with code
`aaaaaaaa`, and the following GetOriginalURL of that code, whose query is cancelled,
fails with a wrapped database error. -/
theorem GetOriginalURL_after_create_query_failure :
    CreateShortURL SQLiteRepository (Env.healthy 7) DB.empty zeroRand "https://example.com"
      = some (.ok sampleRecord, sampleDB, zeroRand8) ∧
    (GetOriginalURL SQLiteRepository cancelledEnv sampleDB sampleRecord.ShortCode).1
      = .error (.wrap "database error on find" (.driver "context canceled")) :=
  ⟨rfl, by decide⟩

/-- C3, as amended: for every store state and every code c that no stored record has,
FindByCode(c) and GetOriginalURL(c) return exactly ErrURLNotFound, unwrapped and with
no record, provided the database query itself reports no failure; when the query
reports a failure, both return that failure wrapped as `database error on find`,
which is not ErrURLNotFound, whether or not c is stored; and for every outcome, an
error that is ErrURLNotFound is returned only if it is exactly ErrURLNotFound and no
stored record has ShortCode c. -/
theorem FindByCode_unknown_code (env : Env) (db : DB) (c : String) :
    ((∀ row ∈ db.rows, row.short_code ≠ c) → env.execErr = none →
      SQLiteRepository.FindByCode env db c = (.error .ErrURLNotFound, db) ∧
      GetOriginalURL SQLiteRepository env db c = (.error .ErrURLNotFound, db)) ∧
    (∀ msg, env.execErr = some msg →
      SQLiteRepository.FindByCode env db c
        = (.error (.wrap "database error on find" (.driver msg)), db) ∧
      GetOriginalURL SQLiteRepository env db c
        = (.error (.wrap "database error on find" (.driver msg)), db) ∧
      errorsIs (.wrap "database error on find" (.driver msg)) .ErrURLNotFound = false) ∧
    (∀ e, (SQLiteRepository.FindByCode env db c).1 = .error e ∨
        (GetOriginalURL SQLiteRepository env db c).1 = .error e →
      errorsIs e .ErrURLNotFound = true →
      e = .ErrURLNotFound ∧ ∀ row ∈ db.rows, row.short_code ≠ c) := by
  have hget : GetOriginalURL SQLiteRepository env db c = SQLiteRepository.FindByCode env db c :=
    GetOriginalURL_eq _ _ _ _
  refine ⟨?_, ?_, ?_⟩
  · intro hfresh hq
    have hsel := selectByCode_none.2 hfresh
    have : SQLiteRepository.FindByCode env db c = (.error .ErrURLNotFound, db) := by
      simp [SQLiteRepository.FindByCode, SQLiteRepository.queryRowScan, hq, hsel, errorsIs]
    exact ⟨this, by rw [hget, this]⟩
  · intro msg hq
    have : SQLiteRepository.FindByCode env db c
        = (.error (.wrap "database error on find" (.driver msg)), db) := by
      simp [SQLiteRepository.FindByCode, SQLiteRepository.queryRowScan, hq, errorsIs]
    exact ⟨this, by rw [hget, this], by simp [errorsIs]⟩
  · intro e he his
    rw [hget, or_self] at he
    unfold SQLiteRepository.FindByCode SQLiteRepository.queryRowScan at he
    cases hq : env.execErr with
    | some msg =>
      rw [hq] at he
      simp only [errorsIs] at he
      simp at he
      subst he
      simp [errorsIs] at his
    | none =>
      rw [hq] at he
      cases hsel : db.selectByCode c with
      | none =>
        rw [hsel] at he
        simp [errorsIs] at he
        exact ⟨he.symm, selectByCode_none.1 hsel⟩
      | some row =>
        rw [hsel] at he
        cases hsc : env.scanErr with
        | some msg =>
          rw [hsc] at he
          simp [errorsIs] at he
          subst he
          simp [errorsIs] at his
        | none =>
          rw [hsc] at he
          simp at he

/-- C3, counterexample: the code `abcd1234` is not stored in the empty store, and
FindByCode and GetOriginalURL whose query is cancelled return a wrapped database
error, which is not ErrURLNotFound. -/
theorem FindByCode_unknown_code_query_failure :
    (∀ row ∈ DB.empty.rows, row.short_code ≠ "abcd1234") ∧
    (SQLiteRepository.FindByCode cancelledEnv DB.empty "abcd1234").1
      = .error (.wrap "database error on find" (.driver "context canceled")) ∧
    (GetOriginalURL SQLiteRepository cancelledEnv DB.empty "abcd1234").1
      = .error (.wrap "database error on find" (.driver "context canceled")) ∧
    errorsIs (.wrap "database error on find" (.driver "context canceled")) .ErrURLNotFound
      = false := by
  refine ⟨by simp [DB.empty], by decide, by decide, by decide⟩

/-- C7: starting from the empty store, after any sequence of CreateShortURL / Save
and GetOriginalURL / FindByCode operations, successful or failed, no two stored
records have the same ShortCode; and Save of a record whose ShortCode is that of an
already stored record returns an error and leaves the store as it was. -/
theorem short_codes_unique (r : Rand) (ops : List Op) :
    (((State.mk DB.empty r).run ops).db.rows.map Row.short_code).Nodup ∧
    (∀ (env : Env) (db : DB) (url : ShortURL),
      (∃ row ∈ db.rows, row.short_code = url.ShortCode) →
      (∃ e, (SQLiteRepository.Save env db url).2.1 = some e) ∧
      (SQLiteRepository.Save env db url).2.2 = db) := by
  constructor
  · exact run_nodup ops (State.mk DB.empty r) (by simp [DB.codes, DB.empty])
  · intro env db url hdup
    rcases Save_spec env db url with ⟨hne, hdb, _⟩ | ⟨_, _, hfresh, _, _⟩
    · exact ⟨Option.ne_none_iff_exists'.1 hne, hdb⟩
    · obtain ⟨row, hrow, hc⟩ := hdup
      exact absurd hc (hfresh row hrow)

/-- C8: for any two successful CreateShortURL calls on the same SQLite store, with any
inputs and any operations in between, the later call returns a strictly greater ID
than the earlier one, so the two IDs differ; and every sequence of operations leaves
the stored rows, ids included, as they were, only appending rows whose ids are greater
than every id stored before. -/
theorem ids_strictly_increasing (st : State) (env1 : Env) (u1 : String) (rec1 : ShortURL)
    (db1 : DB) (r1 : Rand) (ops : List Op) (env2 : Env) (u2 : String) (rec2 : ShortURL)
    (db2 : DB) (r2 : Rand)
    (h1 : CreateShortURL SQLiteRepository env1 st.db st.rand u1 = some (.ok rec1, db1, r1))
    (h2 : CreateShortURL SQLiteRepository env2 ((State.mk db1 r1).run ops).db
      ((State.mk db1 r1).run ops).rand u2 = some (.ok rec2, db2, r2)) :
    rec1.ID < rec2.ID ∧ rec1.ID ≠ rec2.ID ∧
    (∀ (st0 : State) (ops0 : List Op), ∃ t, (st0.run ops0).db.rows = st0.db.rows ++ t ∧
      ∀ row ∈ t, ∀ row0 ∈ st0.db.rows, row0.id < row.id) := by
  obtain ⟨_, hrec1, _, _, hdb1, _, _⟩ := CreateShortURL_ok h1
  obtain ⟨_, hrec2, _, _, _, _, _⟩ := CreateShortURL_ok h2
  have hlast1 : db1.last = st.db.last + 1 := by rw [hdb1]; exact last_after_insert _ _ _ _
  have hmono := run_last_le ops (State.mk db1 r1)
  have hlt : rec1.ID < rec2.ID := by
    rw [hrec1, hrec2]
    simp only [Int.ofNat_eq_coe]
    have : db1.last ≤ ((State.mk db1 r1).run ops).db.last := hmono
    omega
  refine ⟨hlt, ne_of_lt hlt, ?_⟩
  intro st0 ops0
  obtain ⟨t, ht, hf⟩ := run_rows_fresh ops0 st0
  refine ⟨t, ht, ?_⟩
  intro row hrow row0 hrow0
  have hle : row0.id ≤ st0.db.last :=
    le_trans (id_le_maxRowid st0.db row0 hrow0) (le_max_left _ _)
  exact lt_of_le_of_lt hle (hf row hrow)

/-- C9, as amended: CreateShortURL always draws a code and, for every error e returned
by the store Save, returns no record and the error e wrapped with the context
`could not save URL`: unwrapping it gives e, and it is every error that e is; for
every error e returned by the store FindByCode, GetOriginalURL returns e unchanged and
no record. -/
theorem service_passes_store_errors {σ : Type} (repo : URLRepository σ) (env : Env) (s : σ)
    (r : Rand) (u : String) (c : String) :
    (∃ code r1, GenerateShortCode r = some (code, r1)) ∧
    (∀ code r1 e, GenerateShortCode r = some (code, r1) →
      (repo.Save env s ⟨0, u, code, 0⟩).2.1 = some e →
        CreateShortURL repo env s r u
          = some (.error (.wrap "could not save URL" e), (repo.Save env s ⟨0, u, code, 0⟩).2.2, r1) ∧
        (Error.wrap "could not save URL" e).Unwrap = some e ∧
        (∀ target, errorsIs e target = true →
          errorsIs (.wrap "could not save URL" e) target = true) ∧
        errorsIs (.wrap "could not save URL" e) .ErrURLNotFound = errorsIs e .ErrURLNotFound) ∧
    (∀ e, (repo.FindByCode env s c).1 = .error e →
      (GetOriginalURL repo env s c).1 = .error e) := by
  obtain ⟨code, r1, hg, _, _, _, _, h⟩ := CreateShortURL_eq repo env s r u
  refine ⟨⟨code, r1, hg⟩, ?_, ?_⟩
  · intro code2 r2 e hg2 he
    rw [hg] at hg2
    simp only [Option.some.injEq, Prod.mk.injEq] at hg2
    obtain ⟨hc, hr⟩ := hg2
    subst hc; subst hr
    rw [he] at h
    refine ⟨h, rfl, ?_, errorsIs_wrap_sentinel _ _⟩
    intro target ht
    simp [errorsIs, ht]
  · intro e he
    rw [GetOriginalURL_eq]; exact he

/-- C9, counterexample: Save of a record with the stored code `aaaaaaaa` returns the
error e = `database error on save: UNIQUE constraint failed`, and CreateShortURL
returns a different error value, `could not save URL: ` followed by e. -/
theorem CreateShortURL_wraps_save_error :
    GenerateShortCode zeroRand = some ("aaaaaaaa", zeroRand8) ∧
    (SQLiteRepository.Save (Env.healthy 7) oneRowDB ⟨0, "https://example.com", "aaaaaaaa", 0⟩).2.1
      = some (.wrap "database error on save"
          (.driver "UNIQUE constraint failed: urls.short_code")) ∧
    (CreateShortURL SQLiteRepository (Env.healthy 7) oneRowDB zeroRand
        "https://example.com").map Prod.fst
      = some (.error (.wrap "could not save URL" (.wrap "database error on save"
          (.driver "UNIQUE constraint failed: urls.short_code")))) ∧
    Error.wrap "could not save URL" (.wrap "database error on save"
        (.driver "UNIQUE constraint failed: urls.short_code"))
      ≠ .wrap "database error on save" (.driver "UNIQUE constraint failed: urls.short_code") :=
  ⟨rfl, by decide, by decide, by decide⟩

/-- C10: for every repository, store state and URL u, CreateShortURL(u) draws exactly
one short code (8 draws of the random source) and calls Save exactly once, with the
record made of u and that code, and makes no other call; on the SQLite store, if the
drawn code is the ShortCode of a stored record, CreateShortURL returns an error and
no record, the store is exactly what it was, every lookup gives what it gave before
the call, and a lookup of that code returns the record stored under it with its own
original URL, which is the colliding record whenever short codes are unique. -/
theorem CreateShortURL_single_attempt {σ : Type} (repo : URLRepository σ) (env : Env) (s : σ)
    (log : List Call) (r : Rand) (u : String) :
    (∃ code r1 res s1, GenerateShortCode r = some (code, r1) ∧ r1.src = r.src ∧
      r1.pos = r.pos + 8 ∧
      CreateShortURL (recording repo) env (s, log) r u
        = some (res, (s1, log ++ [Call.Save ⟨0, u, code, 0⟩]), r1)) ∧
    (∀ (db : DB) (code : String) (r1 : Rand) (row0 : Row),
      GenerateShortCode r = some (code, r1) → row0 ∈ db.rows → row0.short_code = code →
      ∃ e db1 row, CreateShortURL SQLiteRepository env db r u = some (.error e, db1, r1) ∧
        db1 = db ∧
        (∀ (env2 : Env) (c : String), GetOriginalURL SQLiteRepository env2 db1 c
          = GetOriginalURL SQLiteRepository env2 db c) ∧
        row ∈ db.rows ∧ row.short_code = code ∧
        ((db.rows.map Row.short_code).Nodup → row = row0) ∧
        ∀ env2 : Env, env2.execErr = none → env2.scanErr = none →
          (GetOriginalURL SQLiteRepository env2 db1 code).1
            = .ok ⟨Int.ofNat row.id, row.original_url, code, row.created_at⟩) := by
  constructor
  · obtain ⟨code, r1, hg, _, _, hsrc, hpos⟩ := GenerateShortCode_total r
    rcases hsave : repo.Save env s ⟨0, u, code, 0⟩ with ⟨url1, err, s1⟩
    cases err with
    | none =>
      exact ⟨code, r1, .ok url1, s1, hg, hsrc, hpos,
        by simp [CreateShortURL, hg, recording, hsave]⟩
    | some e =>
      exact ⟨code, r1, .error (.wrap "could not save URL" e), s1, hg, hsrc, hpos,
        by simp [CreateShortURL, hg, recording, hsave]⟩
  · intro db code r1 row0 hg hmem0 hcode0
    obtain ⟨code2, r2, hg2, _, _, _, _, h⟩ := CreateShortURL_eq SQLiteRepository env db r u
    rw [hg] at hg2
    simp only [Option.some.injEq, Prod.mk.injEq] at hg2
    obtain ⟨hc, hr⟩ := hg2
    subst hc; subst hr
    have hex : ∃ row, db.selectByCode code = some row := by
      cases hsel : db.selectByCode code with
      | none => exact absurd hcode0 (selectByCode_none.1 hsel row0 hmem0)
      | some row => exact ⟨row, rfl⟩
    obtain ⟨row, hsel⟩ := hex
    have hrow : row ∈ db.rows ∧ row.short_code = code := by
      simp only [DB.selectByCode] at hsel
      exact ⟨List.mem_of_find?_eq_some hsel, by simpa using List.find?_some hsel⟩
    have hSave : (SQLiteRepository : URLRepository DB).Save = SQLiteRepository.Save := rfl
    rw [hSave] at h
    rcases Save_spec env db ⟨0, u, code, 0⟩ with ⟨hne, hdb, _⟩ | ⟨_, _, hfresh, _, _⟩
    · obtain ⟨e, he⟩ := Option.ne_none_iff_exists'.1 hne
      refine ⟨.wrap "could not save URL" e, db, row, ?_, rfl, fun _ _ => rfl, hrow.1, hrow.2,
        ?_, ?_⟩
      · rw [h, he, hdb]
      · intro hn
        exact List.inj_on_of_nodup_map hn hrow.1 hmem0 (by rw [hrow.2, hcode0])
      · intro env2 hq hs
        rw [GetOriginalURL_eq]
        change (SQLiteRepository.FindByCode env2 db code).1 = _
        rw [FindByCode_healthy env2 db code hq hs, hsel]
        simp [hrow.2]
    · exact absurd hrow.2 (hfresh row hrow.1)

/-! ## Theorems on the HTTP handlers -/

/-- C4, as amended: for every short code taken from the path, the Redirect handler
responds 404 exactly when GetOriginalURL fails with an error that is ErrURLNotFound,
500 exactly when it fails with any other error, and 302 exactly when it succeeds; no
other status is produced.  On success the Location header is what http.Redirect makes
of the OriginalURL of the returned record: it never holds a character outside ASCII,
and it equals OriginalURL whenever OriginalURL is ASCII only and is not parsed as a
URL without scheme and host. -/
theorem RedirectURL_status {σ : Type} (parse : String → Except Error URL)
    (repo : URLRepository σ) (env : Env) (s : σ) (urlPath code : String) :
    ((RedirectURL parse repo env s urlPath code).1.status = 404 ↔
      ∃ err, (GetOriginalURL repo env s code).1 = .error err ∧
        errorsIs err .ErrURLNotFound = true) ∧
    ((RedirectURL parse repo env s urlPath code).1.status = 500 ↔
      ∃ err, (GetOriginalURL repo env s code).1 = .error err ∧
        errorsIs err .ErrURLNotFound = false) ∧
    ((RedirectURL parse repo env s urlPath code).1.status = 302 ↔
      ∃ url, (GetOriginalURL repo env s code).1 = .ok url) ∧
    (∀ url, (GetOriginalURL repo env s code).1 = .ok url →
      (RedirectURL parse repo env s urlPath code).1
        = .Redirect (httpRedirect parse urlPath url.OriginalURL) 302 ∧
      (∀ c ∈ (httpRedirect parse urlPath url.OriginalURL).data, c.toNat < 0x80) ∧
      ((∀ c ∈ url.OriginalURL.data, c.toNat < 0x80) →
        (∀ u, parse url.OriginalURL = .ok u → u.Scheme ≠ "" ∨ u.Host ≠ "") →
        (RedirectURL parse repo env s urlPath code).1 = .Redirect url.OriginalURL 302)) ∧
    ((RedirectURL parse repo env s urlPath code).1.status = 404 ∨
      (RedirectURL parse repo env s urlPath code).1.status = 500 ∨
      (RedirectURL parse repo env s urlPath code).1.status = 302) := by
  unfold RedirectURL
  rcases hres : GetOriginalURL repo env s code with ⟨res, s1⟩
  cases res with
  | error err =>
    cases his : errorsIs err .ErrURLNotFound <;>
      simp [his, Response.status, StatusNotFound, StatusInternalServerError]
  | ok url =>
    simp only [Response.status, StatusFound, Except.ok.injEq, exists_eq', true_iff, exists_false,
      false_and, iff_false, or_true, and_true, forall_eq', true_and, reduceCtorEq]
    refine ⟨by decide, by decide, httpRedirect_ascii parse urlPath url.OriginalURL, ?_⟩
    intro hascii habs
    rw [httpRedirect_of_absolute parse urlPath url.OriginalURL hascii habs]

/-- C4, counterexample: the service stores `example.com` as given, and the redirect for
its code carries the Location `/example.com`; an original URL with the character `é`
is answered with that character percent-escaped whatever the parse of the URL says.
In neither case does the redirect target equal the stored OriginalURL. -/
theorem RedirectURL_location_rewritten :
    CreateShortURL SQLiteRepository (Env.healthy 7) DB.empty zeroRand "example.com"
      = some (.ok ⟨1, "example.com", "aaaaaaaa", 7⟩, relativeDB, zeroRand8) ∧
    (GetOriginalURL SQLiteRepository (Env.healthy 8) relativeDB "aaaaaaaa").1
      = .ok ⟨1, "example.com", "aaaaaaaa", 7⟩ ∧
    (RedirectURL sampleParse SQLiteRepository (Env.healthy 8) relativeDB "/aaaaaaaa"
        "aaaaaaaa").1 = .Redirect "/example.com" 302 ∧
    (GetOriginalURL SQLiteRepository (Env.healthy 8) accentDB "aaaaaaaa").1
      = .ok ⟨1, "https://example.com/café", "aaaaaaaa", 7⟩ ∧
    (RedirectURL (fun _ => .ok ⟨"https", "example.com"⟩) SQLiteRepository (Env.healthy 8)
        accentDB "/aaaaaaaa" "aaaaaaaa").1 = .Redirect "https://example.com/caf%c3%a9" 302 ∧
    (RedirectURL (fun _ => .error (.driver "parse error")) SQLiteRepository (Env.healthy 8)
        accentDB "/aaaaaaaa" "aaaaaaaa").1 = .Redirect "https://example.com/caf%c3%a9" 302 ∧
    (RedirectURL (fun _ => .ok ⟨"", ""⟩) SQLiteRepository (Env.healthy 8)
        accentDB "/aaaaaaaa" "aaaaaaaa").1 = .Redirect "/https:/example.com/caf%c3%a9" 302 :=
  ⟨rfl, by decide, by decide, by decide, by decide, by decide, by decide⟩

/-- C5: for every request body, the Create handler responds 400 and leaves the store
and the random source untouched, making no call to the repository, when the body does
not decode or decodes with an empty url field; when the url is non-empty it responds
500 if CreateShortURL fails and, if CreateShortURL succeeds with short code c, 201
with a short_url equal to `http://localhost:8080/` followed by c; on the SQLite store
this short_url is 30 characters long and c is the 8-character code that was stored. -/
theorem ShortenURL_response {σ : Type} (decode : String → Except Error ShortenRequest)
    (repo : URLRepository σ) (env : Env) (s : σ) (r : Rand) (body : String) :
    (∀ e, decode body = .error e →
      ShortenURL decode repo env s r body = some (.Error "Invalid request body" 400, s, r) ∧
      ∀ log, ShortenURL decode (recording repo) env (s, log) r body
        = some (.Error "Invalid request body" 400, (s, log), r)) ∧
    (∀ req, decode body = .ok req → req.URL = "" →
      ShortenURL decode repo env s r body = some (.Error "URL cannot be empty" 400, s, r) ∧
      ∀ log, ShortenURL decode (recording repo) env (s, log) r body
        = some (.Error "URL cannot be empty" 400, (s, log), r)) ∧
    (∀ req, decode body = .ok req → req.URL ≠ "" →
      ∃ res s1 r1, CreateShortURL repo env s r req.URL = some (res, s1, r1) ∧
        ShortenURL decode repo env s r body = some
          (match res with
            | .error _ => .Error "Internal server error" 500
            | .ok rec => .JSON 201 ⟨"http://localhost:8080/" ++ rec.ShortCode⟩,
           s1, r1)) ∧
    (∀ (db : DB) (req : ShortenRequest) (rec : ShortURL) (db1 : DB) (r1 : Rand),
      decode body = .ok req → req.URL ≠ "" →
      CreateShortURL SQLiteRepository env db r req.URL = some (.ok rec, db1, r1) →
      ShortenURL decode SQLiteRepository env db r body
        = some (.JSON 201 ⟨"http://localhost:8080/" ++ rec.ShortCode⟩, db1, r1) ∧
      ("http://localhost:8080/" ++ rec.ShortCode).length = 30 ∧ rec.ShortCode.length = 8 ∧
      ∃ row ∈ db1.rows, row.short_code = rec.ShortCode ∧ row.original_url = req.URL) := by
  refine ⟨?_, ?_, ?_, ?_⟩
  · intro e he
    simp [ShortenURL, he, StatusBadRequest]
  · intro req hreq hurl
    simp [ShortenURL, hreq, hurl, StatusBadRequest]
  · intro req hreq hurl
    obtain ⟨code, r1, _, _, _, _, _, h⟩ := CreateShortURL_eq repo env s r req.URL
    refine ⟨_, _, r1, h, ?_⟩
    simp only [ShortenURL, hreq, hurl, if_false, h]
    cases (repo.Save env s ⟨0, req.URL, code, 0⟩).2.1 <;> rfl
  · intro db req rec db1 r1 hreq hurl hcreate
    obtain ⟨_, hlen, _, _, _, _, row, hrow, _, hu, hc⟩ :=
      CreateShortURL_returns_record_aux hcreate
    refine ⟨?_, ?_, hlen, row, hrow, hc, hu⟩
    · simp only [ShortenURL, hreq, hurl, if_false, hcreate]
      rfl
    · rw [String.length_append, hlen]; rfl

/-! ## The theorems at concrete inputs -/

/-- The first create on the empty store: the record has id 1 and the code `aaaaaaaa`. -/
theorem CreateShortURL_returns_record_witness :
    CreateShortURL SQLiteRepository (Env.healthy 7) DB.empty zeroRand "https://example.com"
      = some (.ok sampleRecord, sampleDB, zeroRand8) ∧
    (sampleRecord.OriginalURL = "https://example.com" ∧ sampleRecord.ShortCode.length = 8 ∧
      (∀ c ∈ sampleRecord.ShortCode.data, c.isAlphanum = true) ∧
      0 < sampleRecord.ID ∧ sampleRecord.ID = Int.ofNat (DB.empty.last + 1) ∧
      sampleRecord.ID ≤ 2 ^ 63 - 1 ∧
      (∃ row ∈ sampleDB.rows, Int.ofNat row.id = sampleRecord.ID ∧
        row.original_url = "https://example.com" ∧ row.short_code = sampleRecord.ShortCode)) :=
  ⟨rfl, CreateShortURL_returns_record (Env.healthy 7) DB.empty zeroRand "https://example.com"
    sampleRecord sampleDB zeroRand8 rfl⟩

/-- The created record is found again after the operations of `sampleOps`. -/
theorem GetOriginalURL_after_create_witness :
    CreateShortURL SQLiteRepository (Env.healthy 7) DB.empty zeroRand "https://example.com"
      = some (.ok sampleRecord, sampleDB, zeroRand8) ∧
    (Env.healthy 12).execErr = none ∧ (Env.healthy 12).scanErr = none ∧
    ((GetOriginalURL SQLiteRepository (Env.healthy 12)
        ((State.mk sampleDB zeroRand8).run sampleOps).db sampleRecord.ShortCode).1
      = .ok sampleRecord ∧ sampleRecord.OriginalURL = "https://example.com") :=
  ⟨rfl, rfl, rfl, GetOriginalURL_after_create (Env.healthy 7) DB.empty zeroRand
    "https://example.com" sampleRecord sampleDB zeroRand8 sampleOps (Env.healthy 12) rfl rfl rfl⟩

/-- The code `abcd1234` is not stored in `oneRowDB`: both lookups return
ErrURLNotFound when the query runs, and the wrapped failure when it is cancelled. -/
theorem FindByCode_unknown_code_witness :
    (∀ row ∈ oneRowDB.rows, row.short_code ≠ "abcd1234") ∧ (Env.healthy 7).execErr = none ∧
    (SQLiteRepository.FindByCode (Env.healthy 7) oneRowDB "abcd1234"
        = (.error .ErrURLNotFound, oneRowDB) ∧
      GetOriginalURL SQLiteRepository (Env.healthy 7) oneRowDB "abcd1234"
        = (.error .ErrURLNotFound, oneRowDB)) ∧
    cancelledEnv.execErr = some "context canceled" ∧
    (SQLiteRepository.FindByCode cancelledEnv oneRowDB "abcd1234"
        = (.error (.wrap "database error on find" (.driver "context canceled")), oneRowDB) ∧
      GetOriginalURL SQLiteRepository cancelledEnv oneRowDB "abcd1234"
        = (.error (.wrap "database error on find" (.driver "context canceled")), oneRowDB) ∧
      errorsIs (.wrap "database error on find" (.driver "context canceled")) .ErrURLNotFound
        = false) :=
  ⟨by decide, rfl,
    (FindByCode_unknown_code (Env.healthy 7) oneRowDB "abcd1234").1 (by decide) rfl,
    rfl,
    (FindByCode_unknown_code cancelledEnv oneRowDB "abcd1234").2.1 "context canceled" rfl⟩

/-- The stored code `aaaaaaaa` redirects with status 302 to `https://go.dev`, an ASCII
URL with scheme and host, which is sent unchanged. -/
theorem RedirectURL_status_witness :
    (GetOriginalURL SQLiteRepository (Env.healthy 7) oneRowDB "aaaaaaaa").1
      = .ok ⟨1, "https://go.dev", "aaaaaaaa", 5⟩ ∧
    (∀ c ∈ ("https://go.dev").data, c.toNat < 0x80) ∧
    sampleParse "https://go.dev" = .ok ⟨"https", "go.dev"⟩ ∧
    (RedirectURL sampleParse SQLiteRepository (Env.healthy 7) oneRowDB "/aaaaaaaa"
        "aaaaaaaa").1 = .Redirect "https://go.dev" 302 :=
  ⟨by decide, by decide, by decide,
    ((RedirectURL_status sampleParse SQLiteRepository (Env.healthy 7) oneRowDB "/aaaaaaaa"
      "aaaaaaaa").2.2.2.1 ⟨1, "https://go.dev", "aaaaaaaa", 5⟩ (by decide)).2.2 (by decide)
      (by
        intro u hu
        have h2 : sampleParse "https://go.dev" = .ok ⟨"https", "go.dev"⟩ := by decide
        rw [show (ShortURL.mk 1 "https://go.dev" "aaaaaaaa" 5).OriginalURL = "https://go.dev"
          from rfl, h2] at hu
        cases hu
        exact Or.inl (by decide))⟩

/-- The empty JSON object is answered with 400 and no change; a body with a url is answered with 201 and the short URL of the stored code. -/
theorem ShortenURL_response_witness :
    (sampleDecode "\x7b\x7d" = .ok ⟨""⟩ ∧
      ShortenURL sampleDecode SQLiteRepository (Env.healthy 7) DB.empty zeroRand "\x7b\x7d"
        = some (.Error "URL cannot be empty" 400, DB.empty, zeroRand)) ∧
    (sampleDecode "\x7b\x22url\x22:\x22https://example.com\x22\x7d"
        = .ok ⟨"https://example.com"⟩ ∧
      CreateShortURL SQLiteRepository (Env.healthy 7) DB.empty zeroRand "https://example.com"
        = some (.ok sampleRecord, sampleDB, zeroRand8) ∧
      ShortenURL sampleDecode SQLiteRepository (Env.healthy 7) DB.empty zeroRand
          "\x7b\x22url\x22:\x22https://example.com\x22\x7d"
        = some (.JSON 201 ⟨"http://localhost:8080/" ++ sampleRecord.ShortCode⟩, sampleDB,
            zeroRand8)) :=
  ⟨⟨by decide,
    ((ShortenURL_response sampleDecode SQLiteRepository (Env.healthy 7) DB.empty zeroRand
      "\x7b\x7d").2.1 ⟨""⟩ (by decide) rfl).1⟩,
   ⟨by decide, rfl,
    ((ShortenURL_response sampleDecode SQLiteRepository (Env.healthy 7) DB.empty zeroRand
      "\x7b\x22url\x22:\x22https://example.com\x22\x7d").2.2.2 DB.empty ⟨"https://example.com"⟩
      sampleRecord sampleDB zeroRand8 (by decide) (by decide) rfl).1⟩⟩

/-- Short codes stay distinct along `sampleOps`, and saving a second record with the code `aaaaaaaa` fails without a change. -/
theorem short_codes_unique_witness :
    (((State.mk DB.empty zeroRand).run sampleOps).db.rows.map Row.short_code).Nodup ∧
    (∃ row ∈ oneRowDB.rows, row.short_code = sampleRecord.ShortCode) ∧
    ((∃ e, (SQLiteRepository.Save (Env.healthy 7) oneRowDB sampleRecord).2.1 = some e) ∧
      (SQLiteRepository.Save (Env.healthy 7) oneRowDB sampleRecord).2.2 = oneRowDB) :=
  ⟨(short_codes_unique zeroRand sampleOps).1, by decide,
    (short_codes_unique zeroRand sampleOps).2 (Env.healthy 7) oneRowDB sampleRecord (by decide)⟩

/-- Two creates of the same URL with a lookup in between return the ids 1 and 2. -/
theorem ids_strictly_increasing_witness :
    CreateShortURL SQLiteRepository (Env.healthy 7) DB.empty countRand "https://example.com"
      = some (.ok firstRecord, firstDB, ⟨fun i => i, 8⟩) ∧
    CreateShortURL SQLiteRepository (Env.healthy 9)
        ((State.mk firstDB ⟨fun i => i, 8⟩).run [Op.GetOriginalURL (Env.healthy 8) "abcdefgh"]).db
        ((State.mk firstDB ⟨fun i => i, 8⟩).run [Op.GetOriginalURL (Env.healthy 8) "abcdefgh"]).rand
        "https://example.com"
      = some (.ok secondRecord, secondDB, ⟨fun i => i, 16⟩) ∧
    firstRecord.ID < secondRecord.ID :=
  ⟨rfl, rfl,
    (ids_strictly_increasing ⟨DB.empty, countRand⟩ (Env.healthy 7) "https://example.com"
      firstRecord firstDB ⟨fun i => i, 8⟩ [Op.GetOriginalURL (Env.healthy 8) "abcdefgh"]
      (Env.healthy 9) "https://example.com" secondRecord secondDB ⟨fun i => i, 16⟩ rfl rfl).1⟩

/-- A collision on `aaaaaaaa` reaches the caller wrapped once more; ErrURLNotFound reaches it unchanged. -/
theorem service_passes_store_errors_witness :
    GenerateShortCode zeroRand = some ("aaaaaaaa", zeroRand8) ∧
    (SQLiteRepository.Save (Env.healthy 7) oneRowDB ⟨0, "https://example.com", "aaaaaaaa", 0⟩).2.1
      = some (.wrap "database error on save"
          (.driver "UNIQUE constraint failed: urls.short_code")) ∧
    CreateShortURL SQLiteRepository (Env.healthy 7) oneRowDB zeroRand "https://example.com"
      = some (.error (.wrap "could not save URL" (.wrap "database error on save"
          (.driver "UNIQUE constraint failed: urls.short_code"))), oneRowDB, zeroRand8) ∧
    (SQLiteRepository.FindByCode (Env.healthy 7) oneRowDB "abcd1234").1 = .error .ErrURLNotFound ∧
    (GetOriginalURL SQLiteRepository (Env.healthy 7) oneRowDB "abcd1234").1
      = .error .ErrURLNotFound :=
  ⟨rfl, by decide,
    ((service_passes_store_errors SQLiteRepository (Env.healthy 7) oneRowDB zeroRand
      "https://example.com" "abcd1234").2.1 "aaaaaaaa" zeroRand8 _ rfl (by decide)).1,
    by decide,
    (service_passes_store_errors SQLiteRepository (Env.healthy 7) oneRowDB zeroRand
      "https://example.com" "abcd1234").2.2 .ErrURLNotFound (by decide)⟩

/-- A create that draws the stored code `aaaaaaaa` fails and leaves `oneRowDB` and its record as they were. -/
theorem CreateShortURL_single_attempt_witness :
    GenerateShortCode zeroRand = some ("aaaaaaaa", zeroRand8) ∧
    (⟨1, "https://go.dev", "aaaaaaaa", 5⟩ : Row) ∈ oneRowDB.rows ∧
    (∃ e db1 row,
      CreateShortURL SQLiteRepository (Env.healthy 7) oneRowDB zeroRand "https://example.com"
        = some (.error e, db1, zeroRand8) ∧
      db1 = oneRowDB ∧
      (∀ (env2 : Env) (c : String), GetOriginalURL SQLiteRepository env2 db1 c
        = GetOriginalURL SQLiteRepository env2 oneRowDB c) ∧
      row ∈ oneRowDB.rows ∧ row.short_code = "aaaaaaaa" ∧
      ((oneRowDB.rows.map Row.short_code).Nodup → row = ⟨1, "https://go.dev", "aaaaaaaa", 5⟩) ∧
      ∀ env2 : Env, env2.execErr = none → env2.scanErr = none →
        (GetOriginalURL SQLiteRepository env2 db1 "aaaaaaaa").1
          = .ok ⟨Int.ofNat row.id, row.original_url, "aaaaaaaa", row.created_at⟩) :=
  ⟨rfl, by decide,
    (CreateShortURL_single_attempt SQLiteRepository (Env.healthy 7) oneRowDB [] zeroRand
      "https://example.com").2 oneRowDB "aaaaaaaa" zeroRand8 ⟨1, "https://go.dev", "aaaaaaaa", 5⟩
      rfl (by decide) rfl⟩

end UrlShortner
